import Mathlib

/-!
Shallow embedding of the build pipeline of `yaost` (src/yaost/project.py)
and verification of its specification.

Modelling conventions:
* The file system is an association list from path strings to byte lists,
  plus a list of existing directories.  `os.path.exists` on a file is
  a lookup; `os.makedirs` appends a directory.
* Python `dict` values (the part registry, the scad cache) are association
  lists with insert-or-replace semantics, which matches `d[k] = v` and
  preserves insertion order.
* `hashlib.sha256` is an external library; it is modelled as an abstract
  digest function `H : List Nat -> String` over the fed byte stream.
  Feeding the stream chunkwise (the 4096-byte read loop of the source)
  is equivalent to feeding the concatenation, which is what we model.
* `uuid.uuid4()` returns a fresh `UUID` object, which in Python is never
  equal to any `str`.  We model fingerprints as an inductive type with a
  `digest` constructor for hex strings and a `uuidFallback` constructor
  for the fallback, fed by an explicit freshness counter.
* The resolution parameters `fa`, `fs`, `fn` are Python floats formatted
  with `'{:.4f}'`.  We model them in exact fixed point (integer number of
  ten-thousandths), on which four-decimal formatting is exact.
-/

/-- A geometry handle: opaque to the build layer except for its
`to_string` serialization (see `model.to_string()` in `build_scad`). -/
structure Model where
  str : String
deriving DecidableEq, Repr

/-- The project state: resolution parameters (fixed point, units of
10^-4) and the part registry, per `Project.__init__`. -/
structure Project where
  fa : Int
  fs : Int
  fn : Int
  parts : List (String × Model)
deriving DecidableEq, Repr

/-- The command line options consumed by the build operations. -/
structure Args where
  scadDirectory : String
  stlDirectory : String
  force : Bool
deriving DecidableEq, Repr

/-- Association-list lookup, the meaning of `d[k]` / `d.get(k)`. -/
def lookupA {α : Type} : List (String × α) → String → Option α
  | [], _ => none
  | (k, v) :: rest, q => if k = q then some v else lookupA rest q

/-- `d.get(k, dflt)`. -/
def lookupD {α : Type} (m : List (String × α)) (k : String) (d : α) : α :=
  (lookupA m k).getD d

/-- Association-list insert-or-replace, the meaning of `d[k] = v` on a
Python dict (replaces in place, appends new keys at the end). -/
def insertA {α : Type} : List (String × α) → String → α → List (String × α)
  | [], k, v => [(k, v)]
  | (k', v') :: rest, k, v =>
      if k' = k then (k', v) :: rest else (k', v') :: insertA rest k v

/-- The file system visible to the build: file contents by path, plus
the set of directories that exist. -/
structure FS where
  files : List (String × List Nat)
  dirs : List String
deriving DecidableEq, Repr

/-- `os.path.exists` on a file path. -/
def fileExists (fs : FS) (p : String) : Bool :=
  (lookupA fs.files p).isSome

/-- `os.makedirs(d)` guarded by `os.path.exists(d)`. -/
def mkdirs (fs : FS) (d : String) : FS :=
  if d ∈ fs.dirs then fs else { fs with dirs := fs.dirs ++ [d] }

/-- Write a file (`open(path, 'w')` followed by writes). -/
def writeFile (fs : FS) (p : String) (c : List Nat) : FS :=
  { fs with files := insertA fs.files p c }

/-- A fingerprint value as produced by `Project._get_files_hash`: either
the hex digest string of the hash, or the `uuid.uuid4()` fallback object
returned when reading a file failed.  In Python a `UUID` object is never
equal to a `str`, which the two constructors capture. -/
inductive Fingerprint where
  | digest (hex : String)
  | uuidFallback (u : Nat)
deriving DecidableEq, Repr

/-- The fixed 6-byte separator fed before each file,
`b'\x00\x00\x00\x01\x00\x00'` in the source. -/
def sep : List Nat := [0, 0, 0, 1, 0, 0]

/-- The byte stream fed to the hash for a list of file names: for each
file in order, the separator followed by the file content.  `none` when
some file cannot be read, which in the source raises inside the `try`
block of `_get_files_hash`. -/
def hashInput (fs : FS) : List String → Option (List Nat)
  | [] => some []
  | n :: rest =>
      (lookupA fs.files n).bind
        (fun c => (hashInput fs rest).map (fun r => sep ++ c ++ r))

/-- `Project._get_files_hash`.  `H` is the abstract sha256 hex digest of
a byte stream; `ctr` is the freshness source for `uuid.uuid4()` and is
consumed exactly when the fallback is taken. -/
def get_files_hash (H : List Nat → String) (fs : FS) (names : List String)
    (ctr : Nat) : Fingerprint × Nat :=
  match hashInput fs names with
  | some input => (Fingerprint.digest (H input), ctr)
  | none => (Fingerprint.uuidFallback ctr, ctr + 1)

/-- The parsed content of the cache file: the `scad_cache` key of the
JSON object when present (a string-to-string mapping). -/
structure PCache where
  scadCache : Option (List (String × String))
deriving DecidableEq, Repr

/-- The state of the cache file on disk: absent, present but not valid
JSON, or a stored JSON object. -/
inductive CacheFile where
  | absent
  | malformed
  | stored (c : PCache)
deriving DecidableEq, Repr

/-- `Project._read_cache`: missing file gives `{}`; a parse failure is
logged and gives `{}`; otherwise the parsed object. -/
def read_cache : CacheFile → PCache
  | CacheFile.absent => ⟨none⟩
  | CacheFile.malformed => ⟨none⟩
  | CacheFile.stored c => c

/-- JSON serialization of the in-memory scad cache mapping: succeeds
exactly when every value is a digest string; a `uuid.uuid4()` fallback
value is not JSON serializable and makes `json.dump` raise. -/
def serializeFp : List (String × Fingerprint) → Option (List (String × String))
  | [] => some []
  | (k, Fingerprint.digest s) :: rest =>
      (serializeFp rest).map (fun r => (k, s) :: r)
  | (_, Fingerprint.uuidFallback _) :: _ => none

/-- `Project._write_cache`: `open(path, 'w')` truncates, then
`json.dump` either writes the whole object or raises partway (leaving a
malformed file); the exception is logged and swallowed. -/
def write_cache (sc : List (String × Fingerprint)) : CacheFile :=
  match serializeFp sc with
  | some l => CacheFile.stored ⟨some l⟩
  | none => CacheFile.malformed

/-- The in-memory scad cache loaded at the start of `build_stl`:
`cache['scad_cache']` after the `if 'scad_cache' not in cache` guard,
with each loaded JSON string a digest-valued entry. -/
def loadScadCache (cf : CacheFile) : List (String × Fingerprint) :=
  ((read_cache cf).scadCache.getD []).map
    (fun kv => (kv.1, Fingerprint.digest kv.2))

/-- The argument of `Project.add_part`: either an explicit name and
model, or a decorated callable, whose invocation either returns a model
or raises (`none`). -/
inductive AddArg where
  | direct (name : String) (model : Model)
  | viaCallable (pyName : String) (result : Option Model)

/-- `name_or_method.__name__.lower()`. -/
def pyLower (s : String) : String :=
  String.mk (s.data.map Char.toLower)

/-- `name_or_method.__name__.lower().replace('_', '-')`. -/
def derivePartName (py : String) : String :=
  String.mk ((pyLower py).data.map (fun c => if c = '_' then '-' else c))

/-- `Project.add_part`: on the callable path the name is derived and the
callable invoked; any exception is logged and swallowed, leaving the
registry untouched. -/
def add_part (parts : List (String × Model)) : AddArg → List (String × Model)
  | AddArg.direct n m => insertA parts n m
  | AddArg.viaCallable py r =>
      match r with
      | some m => insertA parts (derivePartName py) m
      | none => parts

/-- One character of a decimal rendering. -/
def digitChar (d : Nat) : Char :=
  (['0', '1', '2', '3', '4', '5', '6', '7', '8', '9']).getD d '9'

/-- Decimal digits of `n`, most significant first; `fuel` bounds the
recursion and `n + 1` is always enough. -/
def natDigits : Nat → Nat → List Char
  | 0, _ => []
  | fuel + 1, n =>
      if n < 10 then [digitChar n]
      else natDigits fuel (n / 10) ++ [digitChar (n % 10)]

/-- Decimal rendering of a natural number. -/
def natRepr (n : Nat) : String := String.mk (natDigits (n + 1) n)

/-- The four digits after the decimal point, zero padded. -/
def pad4 (n : Nat) : String :=
  String.mk [digitChar (n / 1000 % 10), digitChar (n / 100 % 10),
             digitChar (n / 10 % 10), digitChar (n % 10)]

/-- `'{:.4f}'.format(v)` on an exact fixed-point value `q` counted in
ten-thousandths. -/
def format4 (q : Int) : String :=
  if q < 0 then "-" ++ natRepr (q.natAbs / 10000) ++ "." ++ pad4 (q.natAbs % 10000)
  else natRepr (q.natAbs / 10000) ++ "." ++ pad4 (q.natAbs % 10000)

/-- One configuration line of the emitted file, e.g. `$fa=3.0000;`. -/
def configLine (label : String) (v : Int) : String :=
  label ++ format4 v ++ ";"

/-- The three leading configuration lines written by `build_scad`,
`'$fa={:.4f};\n$fs={:.4f};\n$fn={:.4f};\n'.format(...)`. -/
def configHeader (p : Project) : String :=
  configLine "$fa=" p.fa ++ "\n" ++ configLine "$fs=" p.fs ++ "\n" ++
    configLine "$fn=" p.fn ++ "\n"

/-- The bytes of a string as written to a file. -/
def strBytes (s : String) : List Nat := s.data.map Char.toNat

/-- `os.path.join(args.scad_directory, name + '.scad')`. -/
def scadPath (args : Args) (name : String) : String :=
  args.scadDirectory ++ "/" ++ name ++ ".scad"

/-- `os.path.join(args.stl_directory, name + '.stl')`. -/
def stlPath (args : Args) (name : String) : String :=
  args.stlDirectory ++ "/" ++ name ++ ".stl"

/-- The full content written for one part by `build_scad`. -/
def scadContent (p : Project) (m : Model) : List Nat :=
  strBytes (configHeader p ++ m.str)

/-- The per-part write loop of `build_scad` over an explicit part list. -/
def writeLoop (p : Project) (args : Args) (L : List (String × Model))
    (fs : FS) : FS :=
  L.foldl (fun acc pr => writeFile acc (scadPath args pr.1) (scadContent p pr.2)) fs

/-- The per-part write loop of `build_scad`. -/
def writeScadFiles (p : Project) (args : Args) (fs0 : FS) : FS :=
  writeLoop p args p.parts fs0

/-- `Project.build_scad`: create the scad directory if missing, then
write one description file per part. -/
def build_scad (p : Project) (args : Args) (fs0 : FS) : FS :=
  writeScadFiles p args (mkdirs fs0 args.scadDirectory)

/-- The state threaded through the per-part loop of `build_stl`: the
file system, the in-memory `cache['scad_cache']` mapping, the log of
compiler invocations, and the uuid freshness counter. -/
structure StlState where
  fs : FS
  sc : List (String × Fingerprint)
  calls : List (String × String)
  ctr : Nat
deriving DecidableEq, Repr

/-- The tail of one `build_stl` loop iteration once compilation was
decided: invoke `openscad` (the abstract `compile`), rehash the pair,
and store the fingerprint under the scad file path. -/
def compileStep (H : List Nat → String) (compile : FS → String → String → FS)
    (args : Args) (st : StlState) (name : String) : StlState :=
  { fs := compile st.fs (scadPath args name) (stlPath args name),
    sc := insertA st.sc (scadPath args name)
      (get_files_hash H (compile st.fs (scadPath args name) (stlPath args name))
        [scadPath args name, stlPath args name] st.ctr).1,
    calls := st.calls ++ [(scadPath args name, stlPath args name)],
    ctr := (get_files_hash H (compile st.fs (scadPath args name) (stlPath args name))
        [scadPath args name, stlPath args name] st.ctr).2 }

/-- One iteration of the `for name, _ in self.parts.items()` loop of
`build_stl`: if the stl file exists and `--force` is unset, hash the
(scad, stl) pair and skip when it matches the cached entry for the scad
path; otherwise compile and store the recomputed fingerprint. -/
def build_stl_part (H : List Nat → String)
    (compile : FS → String → String → FS) (args : Args)
    (st : StlState) (pr : String × Model) : StlState :=
  if fileExists st.fs (stlPath args pr.1) && !args.force then
    if lookupD st.sc (scadPath args pr.1) (Fingerprint.digest "")
        = (get_files_hash H st.fs [scadPath args pr.1, stlPath args pr.1] st.ctr).1 then
      { st with
        ctr := (get_files_hash H st.fs [scadPath args pr.1, stlPath args pr.1] st.ctr).2 }
    else
      compileStep H compile args
        { st with
          ctr := (get_files_hash H st.fs [scadPath args pr.1, stlPath args pr.1] st.ctr).2 }
        pr.1
  else compileStep H compile args st pr.1

/-- The file system state after the opening of `build_stl`: the
`build_scad` call followed by creation of the stl directory. -/
def scadPhase (p : Project) (args : Args) (fs0 : FS) : FS :=
  mkdirs (build_scad p args fs0) args.stlDirectory

/-- The outcome of `Project.build_stl`: final file system, final
in-memory scad cache mapping, the cache file written at the end, and
the list of compiler invocations performed. -/
structure BuildResult where
  fs : FS
  mem : List (String × Fingerprint)
  cacheOut : CacheFile
  calls : List (String × String)
deriving DecidableEq, Repr

/-- `Project.build_stl`: emit the scad files, load the cache, ensure the
stl directory, run the per-part loop, and persist the cache once. -/
def build_stl (H : List Nat → String)
    (compile : FS → String → String → FS) (p : Project) (args : Args)
    (fs0 : FS) (cacheIn : CacheFile) (ctr0 : Nat) : BuildResult :=
  let fs2 := scadPhase p args fs0
  let sc0 := loadScadCache cacheIn
  let stF := p.parts.foldl (build_stl_part H compile args) ⟨fs2, sc0, [], ctr0⟩
  ⟨stF.fs, stF.sc, write_cache stF.sc, stF.calls⟩

/-- One call of `Project.run` given the current value of the class-level
`_single_run_guard` flag: returns the new flag value and whether the
body (argument parsing and dispatch) executed. -/
def run_once (guard : Bool) : Bool × Bool :=
  if guard then (guard, false) else (true, true)

/-- The guard value after `n` calls of `run` in one process, starting
from the initial `False`. -/
def guard_after : Nat → Bool
  | 0 => false
  | n + 1 => (run_once (guard_after n)).1

/-- Whether the body of `run` executes on the `n`-th call (0-based). -/
def executed_on_call (n : Nat) : Bool :=
  (run_once (guard_after n)).2

/-- A string renders a value to four decimal places: it splits at a dot
into an integer part and exactly four digits. -/
def fourDecimals (s : String) : Prop :=
  ∃ a b : String, s = a ++ "." ++ b ∧ b.length = 4 ∧ ∀ c ∈ b.data, c.isDigit = true

/-- A string that contains no line break. -/
def noNewline (s : String) : Prop := ∀ c ∈ s.data, c ≠ '\n'

/-! ## Helper lemmas about the association-list operations -/

theorem lookupA_insertA_self {α : Type} (l : List (String × α)) (k : String)
    (v : α) : lookupA (insertA l k v) k = some v := by
  induction l with
  | nil => simp [insertA, lookupA]
  | cons hd tl ih =>
      by_cases h : hd.1 = k
      · simp [insertA, lookupA, h]
      · simp [insertA, lookupA, h, ih]

theorem lookupA_insertA_ne {α : Type} (l : List (String × α))
    (k k' : String) (v : α) (h : k' ≠ k) :
    lookupA (insertA l k' v) k = lookupA l k := by
  induction l with
  | nil => simp [insertA, lookupA, h]
  | cons hd tl ih =>
      by_cases hk : hd.1 = k'
      · simp [insertA, lookupA, hk, h, ih]
      · simp only [insertA, hk, if_false, lookupA]
        by_cases hq : hd.1 = k <;> simp [hq, ih]

theorem insertA_eq_of_lookupA {α : Type} (l : List (String × α))
    (k : String) (v : α) (h : lookupA l k = some v) : insertA l k v = l := by
  induction l with
  | nil => simp [lookupA] at h
  | cons hd tl ih =>
      obtain ⟨k1, v1⟩ := hd
      by_cases hk : k1 = k
      · simp only [lookupA, hk, if_true] at h
        cases h
        simp [insertA, hk]
      · simp only [lookupA, hk, if_false] at h
        simp [insertA, hk, ih h]

theorem mem_keys_insertA {α : Type} (l : List (String × α)) (k q : String)
    (v : α) (h : q ∈ (insertA l k v).map Prod.fst) :
    q = k ∨ q ∈ l.map Prod.fst := by
  induction l with
  | nil => simpa [insertA] using h
  | cons hd tl ih =>
      obtain ⟨k1, v1⟩ := hd
      by_cases hk : k1 = k
      · simp only [insertA, hk, if_true, List.map_cons, List.mem_cons] at h ⊢
        subst hk
        rcases h with h | h
        · exact Or.inl h
        · exact Or.inr (Or.inr h)
      · simp only [insertA, hk, if_false, List.map_cons, List.mem_cons] at h ⊢
        rcases h with h | h
        · exact Or.inr (Or.inl h)
        · rcases ih h with h | h
          · exact Or.inl h
          · exact Or.inr (Or.inr h)

/-! ## Helper lemmas about hashing -/

theorem hashInput_none_of_miss (fs : FS) (names : List String) (n : String)
    (hmem : n ∈ names) (hmiss : lookupA fs.files n = none) :
    hashInput fs names = none := by
  induction names with
  | nil => cases hmem
  | cons hd tl ih =>
      rcases List.mem_cons.mp hmem with h | h
      · subst h
        simp [hashInput, hmiss]
      · cases hl : lookupA fs.files hd with
        | none => simp [hashInput, hl]
        | some c => simp [hashInput, hl, ih h]

theorem lookupA_map_digest (l : List (String × String)) (k : String)
    (v : Fingerprint)
    (h : lookupA (l.map (fun kv => (kv.1, Fingerprint.digest kv.2))) k = some v) :
    ∃ s : String, v = Fingerprint.digest s := by
  induction l with
  | nil => simp [lookupA] at h
  | cons hd tl ih =>
      by_cases hk : hd.1 = k
      · simp only [List.map_cons, lookupA, hk, if_true] at h
        exact ⟨hd.2, (Option.some_injective _ h).symm⟩
      · simp only [List.map_cons, lookupA, hk, if_false] at h
        exact ih h

theorem hashInput_eq_flatten (fs : FS) (names : List String)
    (h : ∀ n ∈ names, (lookupA fs.files n).isSome = true) :
    hashInput fs names
      = some ((names.map (fun n => sep ++ (lookupA fs.files n).getD [])).flatten) := by
  induction names with
  | nil => simp [hashInput]
  | cons hd tl ih =>
      have hhd := h hd (List.mem_cons_self hd tl)
      cases hl : lookupA fs.files hd with
      | none => rw [hl] at hhd; simp at hhd
      | some c =>
          have htl := ih (fun n hn => h n (List.mem_cons_of_mem hd hn))
          simp [hashInput, hl, htl]

theorem loadScadCache_values_digest (cf : CacheFile) (k : String)
    (v : Fingerprint) (h : lookupA (loadScadCache cf) k = some v) :
    ∃ s : String, v = Fingerprint.digest s :=
  lookupA_map_digest ((read_cache cf).scadCache.getD []) k v h

/-! ## Claim theorems: hashing and cache I/O -/

/-- C3: if fingerprint computation meets a missing file, it does not
fail the build; it returns the `uuid.uuid4()` fallback, which is
distinct from every hex-digest fingerprint, so every lookup in a cache
loaded from disk (whose values are all digest strings) misses. -/
theorem c3_hash_failure_fallback (H : List Nat → String) (fs : FS)
    (names : List String) (ctr : Nat) (n : String)
    (hmem : n ∈ names) (hmiss : lookupA fs.files n = none) :
    (get_files_hash H fs names ctr).1 = Fingerprint.uuidFallback ctr
    ∧ (∀ s : String, Fingerprint.uuidFallback ctr ≠ Fingerprint.digest s)
    ∧ (∀ (cf : CacheFile) (k : String),
        lookupA (loadScadCache cf) k ≠ some ((get_files_hash H fs names ctr).1)) := by
  have hni := hashInput_none_of_miss fs names n hmem hmiss
  have hval : (get_files_hash H fs names ctr).1 = Fingerprint.uuidFallback ctr := by
    simp [get_files_hash, hni]
  refine ⟨hval, ?_, ?_⟩
  · intro s h
    cases h
  · intro cf k hlk
    rw [hval] at hlk
    rcases loadScadCache_values_digest cf k _ hlk with ⟨s, hs⟩
    cases hs

/-- Witness for C3 at a concrete missing file. -/
theorem c3_hash_failure_fallback_witness :
    (get_files_hash (fun _ => "h") ⟨[], []⟩ ["x"] 5).1 = Fingerprint.uuidFallback 5 :=
  (c3_hash_failure_fallback (fun _ => "h") ⟨[], []⟩ ["x"] 5 "x" (by decide)
    (by decide)).1

/-- C5: when every named file is readable, the fingerprint is the digest
of the stream obtained by feeding, for each file in order, the fixed
6-byte separator followed by that file's bytes; in particular the result
does not depend on the uuid freshness source, so hashing the same files
twice yields the same fingerprint. -/
theorem c5_fingerprint_stream (H : List Nat → String) (fs : FS)
    (names : List String) (ctr ctr' : Nat)
    (h : ∀ n ∈ names, (lookupA fs.files n).isSome = true) :
    (get_files_hash H fs names ctr).1
      = Fingerprint.digest
          (H ((names.map (fun n => sep ++ (lookupA fs.files n).getD [])).flatten))
    ∧ sep.length = 6
    ∧ (get_files_hash H fs names ctr).1 = (get_files_hash H fs names ctr').1 := by
  have hi := hashInput_eq_flatten fs names h
  refine ⟨?_, by decide, ?_⟩
  · simp [get_files_hash, hi]
  · simp [get_files_hash, hi]

/-- Witness for C5 on a concrete pair of files. -/
theorem c5_fingerprint_stream_witness :
    (get_files_hash (fun l => natRepr l.length)
        ⟨[("a", [1]), ("b", [2, 3])], []⟩ ["a", "b"] 0).1
      = Fingerprint.digest
          ((fun l : List Nat => natRepr l.length)
            ((["a", "b"].map
              (fun n => sep ++ (lookupA [("a", [1]), ("b", [2, 3])] n).getD [])).flatten)) :=
  (c5_fingerprint_stream (fun l => natRepr l.length)
      ⟨[("a", [1]), ("b", [2, 3])], []⟩ ["a", "b"] 0 1 (by decide)).1

/-- C7: cache I/O never propagates an error: a missing cache file loads
as the empty mapping, an unparseable one loads as the empty mapping, and
saving always terminates in one of the two non-raising outcomes (a
stored document or a swallowed write failure). -/
theorem c7_cache_io_total :
    read_cache CacheFile.absent = ⟨none⟩
    ∧ read_cache CacheFile.malformed = ⟨none⟩
    ∧ ∀ sc : List (String × Fingerprint),
        (∃ l, write_cache sc = CacheFile.stored ⟨some l⟩)
        ∨ write_cache sc = CacheFile.malformed := by
  refine ⟨rfl, rfl, fun sc => ?_⟩
  cases h : serializeFp sc with
  | none => exact Or.inr (by simp [write_cache, h])
  | some l => exact Or.inl ⟨l, by simp [write_cache, h]⟩

/-! ## Claim theorems: part registration and the run guard -/

/-- C6: when the geometry callable raises, `add_part` swallows the
error: the registry is returned unchanged, every existing entry is
preserved, and if no part was registered under the derived name before,
none is afterwards. -/
theorem c6_add_part_swallows (parts : List (String × Model)) (py : String) :
    add_part parts (AddArg.viaCallable py none) = parts
    ∧ (∀ e ∈ parts, e ∈ add_part parts (AddArg.viaCallable py none))
    ∧ (lookupA parts (derivePartName py) = none →
        lookupA (add_part parts (AddArg.viaCallable py none)) (derivePartName py)
          = none) := by
  refine ⟨rfl, fun e he => he, fun h => h⟩

/-- Witness for C6 at a concrete registry and failing callable. -/
theorem c6_add_part_swallows_witness :
    lookupA (add_part [("b", ⟨"B"⟩)] (AddArg.viaCallable "Broken_Part" none))
        (derivePartName "Broken_Part") = none :=
  (c6_add_part_swallows [("b", ⟨"B"⟩)] "Broken_Part").2.2 (by decide)

/-- C9: the first call of `run` in a process executes its body; every
later call sees the `_single_run_guard` flag set and returns without
executing anything. -/
theorem c9_single_run_guard :
    executed_on_call 0 = true ∧ ∀ n : Nat, 0 < n → executed_on_call n = false := by
  have hg : ∀ n : Nat, guard_after (n + 1) = true := by
    intro n
    show (run_once (guard_after n)).1 = true
    cases h : guard_after n <;> simp [run_once, h]
  refine ⟨rfl, fun n hn => ?_⟩
  cases n with
  | zero => cases hn
  | succ m =>
      show (run_once (guard_after (m + 1))).2 = false
      rw [hg m]
      rfl

/-- Witness for C9: the second call is a no-op. -/
theorem c9_single_run_guard_witness : executed_on_call 1 = false :=
  c9_single_run_guard.2 1 (by decide)

/-! ## Helper lemmas about decimal formatting -/

theorem digitChar_isDigit (d : Nat) : (digitChar d).isDigit = true := by
  rcases d with _ | _ | _ | _ | _ | _ | _ | _ | _ | _ | n
  iterate 10 decide
  have h10 : (['0', '1', '2', '3', '4', '5', '6', '7', '8', '9'] : List Char).length
      ≤ n + 10 := by
    show 10 ≤ n + 10
    exact Nat.le_add_left 10 n
  unfold digitChar
  rw [List.getD_eq_default _ _ h10]
  decide

theorem natDigits_digits (fuel n : Nat) (c : Char)
    (h : c ∈ natDigits fuel n) : c.isDigit = true := by
  induction fuel generalizing n with
  | zero => simp [natDigits] at h
  | succ f ih =>
      unfold natDigits at h
      by_cases hn : n < 10
      · simp only [hn, if_true, List.mem_singleton] at h
        subst h
        exact digitChar_isDigit n
      · simp only [hn, if_false, List.mem_append, List.mem_singleton] at h
        rcases h with h | h
        · exact ih (n / 10) h
        · subst h
          exact digitChar_isDigit (n % 10)

theorem pad4_digits (n : Nat) (c : Char) (h : c ∈ (pad4 n).data) :
    c.isDigit = true := by
  simp only [pad4, List.mem_cons] at h
  rcases h with h | h | h | h | h
  · subst h; exact digitChar_isDigit _
  · subst h; exact digitChar_isDigit _
  · subst h; exact digitChar_isDigit _
  · subst h; exact digitChar_isDigit _
  · cases h

theorem pad4_length (n : Nat) : (pad4 n).length = 4 := rfl

theorem format4_fourDecimals (q : Int) : fourDecimals (format4 q) := by
  unfold format4
  by_cases hq : q < 0
  · refine ⟨"-" ++ natRepr (q.natAbs / 10000), pad4 (q.natAbs % 10000),
      ?_, pad4_length _, fun c hc => pad4_digits _ c hc⟩
    simp [hq, String.append_assoc]
  · refine ⟨natRepr (q.natAbs / 10000), pad4 (q.natAbs % 10000),
      ?_, pad4_length _, fun c hc => pad4_digits _ c hc⟩
    simp [hq]

theorem format4_chars (q : Int) (c : Char) (h : c ∈ (format4 q).data) :
    c.isDigit = true ∨ c = '.' ∨ c = '-' := by
  have hdash : ("-" : String).data = ['-'] := rfl
  have hdot : ("." : String).data = ['.'] := rfl
  unfold format4 at h
  by_cases hq : q < 0
  · rw [if_pos hq] at h
    simp only [String.data_append, List.mem_append] at h
    rcases h with ((h | h) | h) | h
    · exact Or.inr (Or.inr (List.mem_singleton.mp h))
    · exact Or.inl (natDigits_digits _ _ c h)
    · exact Or.inr (Or.inl (List.mem_singleton.mp h))
    · exact Or.inl (pad4_digits _ c h)
  · rw [if_neg hq] at h
    simp only [String.data_append, List.mem_append] at h
    rcases h with (h | h) | h
    · exact Or.inl (natDigits_digits _ _ c h)
    · exact Or.inr (Or.inl (List.mem_singleton.mp h))
    · exact Or.inl (pad4_digits _ c h)

theorem noNewline_configLine (label : String) (v : Int)
    (hl : ∀ c ∈ label.data, c ≠ '\n') : noNewline (configLine label v) := by
  intro c hc
  simp only [configLine, String.data_append, List.mem_append] at hc
  rcases hc with (hc | hc) | hc
  · exact hl c hc
  · rcases format4_chars v c hc with h | h | h
    · intro he
      subst he
      cases h
    · subst h; decide
    · subst h; decide
  · have : c = ';' := List.mem_singleton.mp hc
    subst this
    decide

/-! ## Helper lemmas about the scad emission loop -/

theorem scadPath_inj (args : Args) (n n' : String)
    (h : scadPath args n = scadPath args n') : n = n' := by
  unfold scadPath at h
  have hd := congrArg String.data h
  simp only [String.data_append] at hd
  have h1 : (args.scadDirectory.data ++ "/".data) ++ (n.data ++ ".scad".data)
      = (args.scadDirectory.data ++ "/".data) ++ (n'.data ++ ".scad".data) := by
    simpa [List.append_assoc] using hd
  have h2 := (List.append_right_inj _).mp h1
  have h3 := (List.append_left_inj _).mp h2
  exact String.ext h3

theorem dirs_writeLoop (p : Project) (args : Args) (L : List (String × Model))
    (fs : FS) : (writeLoop p args L fs).dirs = fs.dirs := by
  induction L generalizing fs with
  | nil => rfl
  | cons hd tl ih => exact (ih (writeFile fs (scadPath args hd.1) (scadContent p hd.2)))

theorem lookupA_writeLoop_notmem (p : Project) (args : Args)
    (L : List (String × Model)) (fs : FS) (q : String)
    (h : ∀ pr ∈ L, scadPath args pr.1 ≠ q) :
    lookupA (writeLoop p args L fs).files q = lookupA fs.files q := by
  induction L generalizing fs with
  | nil => rfl
  | cons hd tl ih =>
      have hhd := h hd (List.mem_cons_self hd tl)
      have htl := fun pr hpr => h pr (List.mem_cons_of_mem hd hpr)
      calc lookupA (writeLoop p args (hd :: tl) fs).files q
          = lookupA (writeFile fs (scadPath args hd.1) (scadContent p hd.2)).files q :=
            ih _ htl
        _ = lookupA fs.files q := lookupA_insertA_ne _ q _ _ hhd

theorem lookupA_writeLoop_mem (p : Project) (args : Args)
    (L : List (String × Model)) (fs : FS) (name : String) (m : Model)
    (hnd : (L.map Prod.fst).Nodup) (hmem : (name, m) ∈ L) :
    lookupA (writeLoop p args L fs).files (scadPath args name)
      = some (scadContent p m) := by
  induction L generalizing fs with
  | nil => cases hmem
  | cons hd tl ih =>
      rcases List.mem_cons.mp hmem with h | h
      · subst h
        have hni : name ∉ tl.map Prod.fst := (List.nodup_cons.mp hnd).1
        have hne : ∀ pr ∈ tl, scadPath args pr.1 ≠ scadPath args name := by
          intro pr hpr hpath
          exact hni (List.mem_map.mpr ⟨pr, hpr, scadPath_inj args pr.1 name hpath⟩)
        calc lookupA (writeLoop p args ((name, m) :: tl) fs).files (scadPath args name)
            = lookupA (writeFile fs (scadPath args name) (scadContent p m)).files
                (scadPath args name) := lookupA_writeLoop_notmem p args tl _ _ hne
          _ = some (scadContent p m) := lookupA_insertA_self _ _ _
      · exact ih _ (List.nodup_cons.mp hnd).2 h

/-- C4: for every registered part (with the part names unique, as the
dict registry guarantees), the emitted description file consists of
exactly three newline-terminated configuration lines for `$fa`, `$fs`
and `$fn`, each holding a value formatted to four decimal places,
followed immediately by the serialized geometry text. -/
theorem c4_description_format (p : Project) (args : Args) (fs0 : FS)
    (name : String) (m : Model)
    (hnd : (p.parts.map Prod.fst).Nodup) (hmem : (name, m) ∈ p.parts) :
    ∃ l1 l2 l3 : String,
      lookupA (build_scad p args fs0).files (scadPath args name)
        = some (strBytes (l1 ++ "\n" ++ l2 ++ "\n" ++ l3 ++ "\n" ++ m.str))
      ∧ l1 = "$fa=" ++ format4 p.fa ++ ";"
      ∧ l2 = "$fs=" ++ format4 p.fs ++ ";"
      ∧ l3 = "$fn=" ++ format4 p.fn ++ ";"
      ∧ fourDecimals (format4 p.fa) ∧ fourDecimals (format4 p.fs)
      ∧ fourDecimals (format4 p.fn)
      ∧ noNewline l1 ∧ noNewline l2 ∧ noNewline l3 := by
  refine ⟨configLine "$fa=" p.fa, configLine "$fs=" p.fs, configLine "$fn=" p.fn,
    ?_, rfl, rfl, rfl, format4_fourDecimals p.fa, format4_fourDecimals p.fs,
    format4_fourDecimals p.fn,
    noNewline_configLine _ _ (by decide), noNewline_configLine _ _ (by decide),
    noNewline_configLine _ _ (by decide)⟩
  have hcontent : scadContent p m
      = strBytes (configLine "$fa=" p.fa ++ "\n" ++ configLine "$fs=" p.fs ++ "\n"
          ++ configLine "$fn=" p.fn ++ "\n" ++ m.str) := by
    simp [scadContent, configHeader, String.append_assoc]
  rw [← hcontent]
  exact lookupA_writeLoop_mem p args p.parts _ name m hnd hmem

/-- Witness for C4 on a concrete two-part project. -/
theorem c4_description_format_witness :
    ∃ l1 l2 l3 : String,
      lookupA (build_scad ⟨30000, 5000, 0, [("a", ⟨"A"⟩), ("b", ⟨"B"⟩)]⟩
          ⟨"scad", "stl", false⟩ ⟨[], []⟩).files
          (scadPath ⟨"scad", "stl", false⟩ "b")
        = some (strBytes (l1 ++ "\n" ++ l2 ++ "\n" ++ l3 ++ "\n" ++ Model.str ⟨"B"⟩))
      ∧ l1 = "$fa=" ++ format4 30000 ++ ";"
      ∧ l2 = "$fs=" ++ format4 5000 ++ ";"
      ∧ l3 = "$fn=" ++ format4 0 ++ ";"
      ∧ fourDecimals (format4 30000) ∧ fourDecimals (format4 5000)
      ∧ fourDecimals (format4 0)
      ∧ noNewline l1 ∧ noNewline l2 ∧ noNewline l3 :=
  c4_description_format ⟨30000, 5000, 0, [("a", ⟨"A"⟩), ("b", ⟨"B"⟩)]⟩
    ⟨"scad", "stl", false⟩ ⟨[], []⟩ "b" ⟨"B"⟩ (by decide) (by decide)

/-! ## Idempotence of the description emission -/

theorem mkdirs_eq_of_mem (fs : FS) (d : String) (h : d ∈ fs.dirs) :
    mkdirs fs d = fs := by
  simp [mkdirs, h]

theorem mem_dirs_mkdirs (fs : FS) (d : String) : d ∈ (mkdirs fs d).dirs := by
  unfold mkdirs
  by_cases h : d ∈ fs.dirs <;> simp [h]

theorem writeLoop_eq_of_lookup (p : Project) (args : Args)
    (L : List (String × Model)) (fs : FS)
    (h : ∀ pr ∈ L, lookupA fs.files (scadPath args pr.1) = some (scadContent p pr.2)) :
    writeLoop p args L fs = fs := by
  induction L with
  | nil => rfl
  | cons hd tl ih =>
      have hhd := h hd (List.mem_cons_self hd tl)
      have hw : writeFile fs (scadPath args hd.1) (scadContent p hd.2) = fs := by
        unfold writeFile
        rw [insertA_eq_of_lookupA _ _ _ hhd]
      show writeLoop p args tl (writeFile fs (scadPath args hd.1) (scadContent p hd.2)) = fs
      rw [hw]
      exact ih (fun pr hpr => h pr (List.mem_cons_of_mem hd hpr))

/-- C8: emitting the description files twice with the same parts and
resolution parameters leaves every file and directory byte-identical to
a single emission (given the unique part names the registry guarantees). -/
theorem c8_build_scad_idempotent (p : Project) (args : Args) (fs0 : FS)
    (hnd : (p.parts.map Prod.fst).Nodup) :
    build_scad p args (build_scad p args fs0) = build_scad p args fs0 := by
  have hdir : args.scadDirectory ∈ (build_scad p args fs0).dirs := by
    unfold build_scad writeScadFiles
    rw [dirs_writeLoop]
    exact mem_dirs_mkdirs fs0 args.scadDirectory
  have hmk : mkdirs (build_scad p args fs0) args.scadDirectory = build_scad p args fs0 :=
    mkdirs_eq_of_mem _ _ hdir
  have hlk : ∀ pr ∈ p.parts,
      lookupA (build_scad p args fs0).files (scadPath args pr.1)
        = some (scadContent p pr.2) := by
    intro pr hpr
    exact lookupA_writeLoop_mem p args p.parts _ pr.1 pr.2 hnd hpr
  show writeScadFiles p args (mkdirs (build_scad p args fs0) args.scadDirectory)
      = build_scad p args fs0
  rw [hmk]
  exact writeLoop_eq_of_lookup p args p.parts _ hlk

/-! ## Helper lemmas about the stl build loop -/

theorem get_files_hash_some (H : List Nat → String) (fs : FS)
    (names : List String) (ctr : Nat) (inp : List Nat)
    (h : hashInput fs names = some inp) :
    get_files_hash H fs names ctr = (Fingerprint.digest (H inp), ctr) := by
  simp [get_files_hash, h]

theorem hashInput_some_of_snd_eq (H : List Nat → String) (fs : FS)
    (names : List String) (ctr : Nat)
    (h : (get_files_hash H fs names ctr).2 = ctr) :
    ∃ inp, hashInput fs names = some inp := by
  cases hi : hashInput fs names with
  | some inp => exact ⟨inp, rfl⟩
  | none =>
      exfalso
      rw [get_files_hash, hi] at h
      exact Nat.succ_ne_self ctr h

theorem build_stl_part_skip (H : List Nat → String)
    (compile : FS → String → String → FS) (args : Args)
    (st : StlState) (pr : String × Model)
    (hforce : args.force = false)
    (hex : fileExists st.fs (stlPath args pr.1) = true)
    (hsnd : (get_files_hash H st.fs [scadPath args pr.1, stlPath args pr.1] st.ctr).2
      = st.ctr)
    (hlk : lookupA st.sc (scadPath args pr.1)
      = some ((get_files_hash H st.fs [scadPath args pr.1, stlPath args pr.1] st.ctr).1)) :
    build_stl_part H compile args st pr = st := by
  have hlk2 : lookupD st.sc (scadPath args pr.1) (Fingerprint.digest "")
      = (get_files_hash H st.fs [scadPath args pr.1, stlPath args pr.1] st.ctr).1 := by
    rw [lookupD, hlk, Option.getD_some]
  unfold build_stl_part
  rw [hforce]
  rw [if_pos (show (fileExists st.fs (stlPath args pr.1) && !false) = true by
    rw [hex]; rfl)]
  rw [if_pos hlk2, hsnd]

theorem build_stl_fold_skip (H : List Nat → String)
    (compile : FS → String → String → FS) (args : Args)
    (hforce : args.force = false) (L : List (String × Model)) (fs : FS)
    (sc : List (String × Fingerprint)) (calls : List (String × String)) (ctr : Nat)
    (h : ∀ pr ∈ L,
       fileExists fs (stlPath args pr.1) = true ∧
       (get_files_hash H fs [scadPath args pr.1, stlPath args pr.1] ctr).2 = ctr ∧
       lookupA sc (scadPath args pr.1)
         = some ((get_files_hash H fs [scadPath args pr.1, stlPath args pr.1] ctr).1)) :
    L.foldl (build_stl_part H compile args) ⟨fs, sc, calls, ctr⟩
      = ⟨fs, sc, calls, ctr⟩ := by
  induction L with
  | nil => rfl
  | cons hd tl ih =>
      obtain ⟨hex, hsnd, hlk⟩ := h hd (List.mem_cons_self hd tl)
      have hstep : build_stl_part H compile args ⟨fs, sc, calls, ctr⟩ hd
          = ⟨fs, sc, calls, ctr⟩ :=
        build_stl_part_skip H compile args ⟨fs, sc, calls, ctr⟩ hd hforce hex hsnd hlk
      rw [List.foldl_cons, hstep]
      exact ih (fun pr hpr => h pr (List.mem_cons_of_mem hd hpr))

theorem build_stl_fold_force (H : List Nat → String)
    (compile : FS → String → String → FS) (args : Args)
    (hforce : args.force = true) (L : List (String × Model)) (st : StlState) :
    (L.foldl (build_stl_part H compile args) st).calls
      = st.calls ++ L.map (fun pr => (scadPath args pr.1, stlPath args pr.1)) := by
  induction L generalizing st with
  | nil => simp
  | cons hd tl ih =>
      have hstep : build_stl_part H compile args st hd
          = compileStep H compile args st hd.1 := by
        unfold build_stl_part
        rw [hforce]
        simp
      rw [List.foldl_cons, hstep, ih]
      show (compileStep H compile args st hd.1).calls ++ _ = _
      simp [compileStep, List.append_assoc]

theorem sc_build_stl_part_cases (H : List Nat → String)
    (compile : FS → String → String → FS) (args : Args)
    (st : StlState) (pr : String × Model) :
    (build_stl_part H compile args st pr).sc = st.sc
    ∨ ∃ v, (build_stl_part H compile args st pr).sc
        = insertA st.sc (scadPath args pr.1) v := by
  unfold build_stl_part
  by_cases hc : (fileExists st.fs (stlPath args pr.1) && !args.force) = true
  · rw [if_pos hc]
    by_cases hm : lookupD st.sc (scadPath args pr.1) (Fingerprint.digest "")
        = (get_files_hash H st.fs [scadPath args pr.1, stlPath args pr.1] st.ctr).1
    · rw [if_pos hm]
      exact Or.inl rfl
    · rw [if_neg hm]
      exact Or.inr ⟨_, rfl⟩
  · rw [if_neg hc]
    exact Or.inr ⟨_, rfl⟩

theorem keys_build_stl_fold (H : List Nat → String)
    (compile : FS → String → String → FS) (args : Args)
    (L : List (String × Model)) (st : StlState) (k : String)
    (h : k ∈ ((L.foldl (build_stl_part H compile args) st).sc).map Prod.fst) :
    k ∈ st.sc.map Prod.fst ∨ ∃ pr, pr ∈ L ∧ k = scadPath args pr.1 := by
  induction L generalizing st with
  | nil => exact Or.inl h
  | cons hd tl ih =>
      rw [List.foldl_cons] at h
      rcases ih (build_stl_part H compile args st hd) h with h1 | h1
      · rcases sc_build_stl_part_cases H compile args st hd with h2 | ⟨v, h2⟩
        · rw [h2] at h1
          exact Or.inl h1
        · rw [h2] at h1
          rcases mem_keys_insertA _ _ _ _ h1 with h3 | h3
          · exact Or.inr ⟨hd, List.mem_cons_self hd tl, h3⟩
          · exact Or.inl h3
      · rcases h1 with ⟨pr, hpr, hk⟩
        exact Or.inr ⟨pr, List.mem_cons_of_mem hd hpr, hk⟩

theorem serializeFp_none_of_mem (l : List (String × Fingerprint)) (k : String)
    (u : Nat) (h : (k, Fingerprint.uuidFallback u) ∈ l) : serializeFp l = none := by
  induction l with
  | nil => cases h
  | cons hd tl ih =>
      rcases List.mem_cons.mp h with h1 | h1
      · rw [← h1]
        rfl
      · obtain ⟨k1, v1⟩ := hd
        cases v1 with
        | digest s => simp [serializeFp, ih h1]
        | uuidFallback w => rfl

/-! ## Claim theorems: the stl build and its cache -/

/-- C2: with `--force` unset, a part whose stl file exists and whose
current (scad, stl) fingerprint is readable and equal to the cached
entry triggers no compiler invocation; with `--force` set, the compiler
runs once for every part regardless of cache and file state. -/
theorem c2_cache_correctness (H : List Nat → String)
    (compile : FS → String → String → FS) (p : Project) (args : Args)
    (fs0 : FS) (cacheIn : CacheFile) (ctr0 : Nat) :
    (args.force = false →
      (∀ pr ∈ p.parts,
         fileExists (scadPhase p args fs0) (stlPath args pr.1) = true ∧
         (get_files_hash H (scadPhase p args fs0)
             [scadPath args pr.1, stlPath args pr.1] ctr0).2 = ctr0 ∧
         lookupA (loadScadCache cacheIn) (scadPath args pr.1)
           = some ((get_files_hash H (scadPhase p args fs0)
               [scadPath args pr.1, stlPath args pr.1] ctr0).1)) →
      (build_stl H compile p args fs0 cacheIn ctr0).calls = [])
    ∧ (args.force = true →
        (build_stl H compile p args fs0 cacheIn ctr0).calls
          = p.parts.map (fun pr => (scadPath args pr.1, stlPath args pr.1))) := by
  constructor
  · intro hforce h
    show (p.parts.foldl (build_stl_part H compile args)
        ⟨scadPhase p args fs0, loadScadCache cacheIn, [], ctr0⟩).calls = []
    rw [build_stl_fold_skip H compile args hforce p.parts _ _ _ _ h]
  · intro hforce
    show (p.parts.foldl (build_stl_part H compile args)
        ⟨scadPhase p args fs0, loadScadCache cacheIn, [], ctr0⟩).calls = _
    rw [build_stl_fold_force H compile args hforce]
    rfl

/-- Witness for C2: a one-part project where an up-to-date cache gives
zero invocations without force and one invocation with force. -/
theorem c2_cache_correctness_witness :
    (build_stl (fun _ => "h") (fun f _ tp => writeFile f tp [7])
        ⟨30000, 5000, 0, [("a", ⟨"C"⟩)]⟩ ⟨"scad", "stl", false⟩
        ⟨[("stl/a.stl", [7])], []⟩
        (CacheFile.stored ⟨some [("scad/a.scad", "h")]⟩) 0).calls = []
    ∧ (build_stl (fun _ => "h") (fun f _ tp => writeFile f tp [7])
        ⟨30000, 5000, 0, [("a", ⟨"C"⟩)]⟩ ⟨"scad", "stl", true⟩
        ⟨[("stl/a.stl", [7])], []⟩
        (CacheFile.stored ⟨some [("scad/a.scad", "h")]⟩) 0).calls
      = [("scad/a.scad", "stl/a.stl")] :=
  ⟨(c2_cache_correctness (fun _ => "h") (fun f _ tp => writeFile f tp [7])
      ⟨30000, 5000, 0, [("a", ⟨"C"⟩)]⟩ ⟨"scad", "stl", false⟩
      ⟨[("stl/a.stl", [7])], []⟩
      (CacheFile.stored ⟨some [("scad/a.scad", "h")]⟩) 0).1 rfl (by decide),
   ((c2_cache_correctness (fun _ => "h") (fun f _ tp => writeFile f tp [7])
      ⟨30000, 5000, 0, [("a", ⟨"C"⟩)]⟩ ⟨"scad", "stl", true⟩
      ⟨[("stl/a.stl", [7])], []⟩
      (CacheFile.stored ⟨some [("scad/a.scad", "h")]⟩) 0).2 rfl).trans (by decide)⟩

/-- C1, as stated, is false: the cache entry written by `build_stl` for
a part is keyed by the description (`.scad`) file path, not by the
artifact (`.stl`) file path.  On a concrete one-part build the persisted
`scad_cache` holds the key `scad/a.scad` and no entry for `stl/a.stl`. -/
theorem c1_counterexample :
    (build_stl (fun _ => "h") (fun f _ tp => writeFile f tp [7])
        ⟨30000, 5000, 0, [("a", ⟨"C"⟩)]⟩ ⟨"scad", "stl", true⟩ ⟨[], []⟩
        CacheFile.absent 0).cacheOut
      = CacheFile.stored ⟨some [("scad/a.scad", "h")]⟩
    ∧ lookupA [("scad/a.scad", "h")] "stl/a.stl" = none := by
  constructor
  · decide
  · decide

/-- C1 amended: the fingerprint computed after (possible) compilation is
stored in the in-memory cache mapping under the description file's path,
and the freshness lookup consults the entry under that same description
path; every key the build adds to `scad_cache` is a description-file
path of some part. -/
theorem c1_cache_keyed_by_scad_path (H : List Nat → String)
    (compile : FS → String → String → FS) (p : Project) (args : Args)
    (fs0 : FS) (cacheIn : CacheFile) (ctr0 : Nat) :
    (∀ (st : StlState) (nm : String) (mdl : Model),
       ((build_stl_part H compile args st (nm, mdl)).sc = st.sc
         ∧ lookupD st.sc (scadPath args nm) (Fingerprint.digest "")
             = (get_files_hash H st.fs [scadPath args nm, stlPath args nm] st.ctr).1)
       ∨ ∃ c : Nat,
           (build_stl_part H compile args st (nm, mdl)).sc
             = insertA st.sc (scadPath args nm)
                 ((get_files_hash H
                     (compile st.fs (scadPath args nm) (stlPath args nm))
                     [scadPath args nm, stlPath args nm] c).1))
    ∧ (∀ k, k ∈ ((build_stl H compile p args fs0 cacheIn ctr0).mem).map Prod.fst →
         k ∈ (loadScadCache cacheIn).map Prod.fst
           ∨ ∃ pr, pr ∈ p.parts ∧ k = scadPath args pr.1) := by
  constructor
  · intro st nm mdl
    unfold build_stl_part
    by_cases hc : (fileExists st.fs (stlPath args nm) && !args.force) = true
    · rw [if_pos hc]
      by_cases hm : lookupD st.sc (scadPath args nm) (Fingerprint.digest "")
          = (get_files_hash H st.fs [scadPath args nm, stlPath args nm] st.ctr).1
      · rw [if_pos hm]
        exact Or.inl ⟨rfl, hm⟩
      · rw [if_neg hm]
        exact Or.inr
          ⟨(get_files_hash H st.fs [scadPath args nm, stlPath args nm] st.ctr).2, rfl⟩
    · rw [if_neg hc]
      exact Or.inr ⟨st.ctr, rfl⟩
  · intro k hk
    exact keys_build_stl_fold H compile args p.parts _ k hk

/-- Witness for the amended C1: on a concrete build the key present in
the final mapping is the description path of the part. -/
theorem c1_cache_keyed_by_scad_path_witness :
    "scad/a.scad" ∈ (loadScadCache CacheFile.absent).map Prod.fst
      ∨ ∃ pr, pr ∈ [("a", (⟨"C"⟩ : Model))]
          ∧ "scad/a.scad" = scadPath ⟨"scad", "stl", true⟩ pr.1 :=
  (c1_cache_keyed_by_scad_path (fun _ => "h") (fun f _ tp => writeFile f tp [7])
    ⟨30000, 5000, 0, [("a", ⟨"C"⟩)]⟩ ⟨"scad", "stl", true⟩ ⟨[], []⟩
    CacheFile.absent 0).2 "scad/a.scad" (by decide)

/-- C10: when a part is compiled and the rehash of its (scad, stl) pair
fails, the `uuid.uuid4()` fallback object is stored in the in-memory
mapping; any such value makes the single final `json.dump` fail and be
swallowed, leaving a malformed cache file, so no fingerprint from that
build, including successfully hashed ones, can be loaded back. -/
theorem c10_uuid_poisons_cache_write (H : List Nat → String)
    (compile : FS → String → String → FS) (p : Project) (args : Args)
    (fs0 : FS) (cacheIn : CacheFile) (ctr0 : Nat) :
    (∀ (st : StlState) (nm : String) (mdl : Model),
       (fileExists st.fs (stlPath args nm) && !args.force) = false →
       hashInput (compile st.fs (scadPath args nm) (stlPath args nm))
           [scadPath args nm, stlPath args nm] = none →
       build_stl_part H compile args st (nm, mdl)
         = ⟨compile st.fs (scadPath args nm) (stlPath args nm),
            insertA st.sc (scadPath args nm) (Fingerprint.uuidFallback st.ctr),
            st.calls ++ [(scadPath args nm, stlPath args nm)], st.ctr + 1⟩)
    ∧ ((∃ k u, (k, Fingerprint.uuidFallback u)
          ∈ (build_stl H compile p args fs0 cacheIn ctr0).mem) →
        (build_stl H compile p args fs0 cacheIn ctr0).cacheOut = CacheFile.malformed
        ∧ read_cache (build_stl H compile p args fs0 cacheIn ctr0).cacheOut
            = ⟨none⟩) := by
  constructor
  · intro st nm mdl hc hni
    have hgf : get_files_hash H
        (compile st.fs (scadPath args nm) (stlPath args nm))
        [scadPath args nm, stlPath args nm] st.ctr
        = (Fingerprint.uuidFallback st.ctr, st.ctr + 1) := by
      simp [get_files_hash, hni]
    unfold build_stl_part
    rw [if_neg (by rw [hc]; exact Bool.false_ne_true)]
    show compileStep H compile args st nm = _
    unfold compileStep
    rw [hgf]
  · intro ⟨k, u, hmem⟩
    have hser := serializeFp_none_of_mem _ k u hmem
    have hout : (build_stl H compile p args fs0 cacheIn ctr0).cacheOut
        = write_cache (build_stl H compile p args fs0 cacheIn ctr0).mem := rfl
    rw [hout, write_cache, hser]
    exact ⟨rfl, rfl⟩

/-- Witness for C10: a compiler that produces no stl file leaves the
uuid fallback in the mapping and the persisted cache malformed. -/
theorem c10_uuid_poisons_cache_write_witness :
    (build_stl (fun _ => "h") (fun f _ _ => f)
        ⟨30000, 5000, 0, [("a", ⟨"C"⟩)]⟩ ⟨"scad", "stl", true⟩ ⟨[], []⟩
        CacheFile.absent 0).cacheOut = CacheFile.malformed :=
  ((c10_uuid_poisons_cache_write (fun _ => "h") (fun f _ _ => f)
      ⟨30000, 5000, 0, [("a", ⟨"C"⟩)]⟩ ⟨"scad", "stl", true⟩ ⟨[], []⟩
      CacheFile.absent 0).2 ⟨"scad/a.scad", 0, by decide⟩).1

/-- Witness for C8 on a concrete two-part project. -/
theorem c8_build_scad_idempotent_witness :
    build_scad ⟨30000, 5000, 0, [("a", ⟨"A"⟩), ("b", ⟨"B"⟩)]⟩ ⟨"scad", "stl", false⟩
        (build_scad ⟨30000, 5000, 0, [("a", ⟨"A"⟩), ("b", ⟨"B"⟩)]⟩
          ⟨"scad", "stl", false⟩ ⟨[], []⟩)
      = build_scad ⟨30000, 5000, 0, [("a", ⟨"A"⟩), ("b", ⟨"B"⟩)]⟩
          ⟨"scad", "stl", false⟩ ⟨[], []⟩ :=
  c8_build_scad_idempotent ⟨30000, 5000, 0, [("a", ⟨"A"⟩), ("b", ⟨"B"⟩)]⟩
    ⟨"scad", "stl", false⟩ ⟨[], []⟩ (by decide)
